import Mathlib

/-!
Shallow embedding of the `iroha_network` wire codec, server helpers and the
peer-discovery handler (src/iroha_network/src/lib.rs), and of the
`Register<Peer>` instruction (src/iroha/src/smartcontracts/isi/world.rs).
Bytes (`u8`) are modeled as `Nat` in `[0, 255]`; a Rust `String` is modeled
by its UTF-8 byte sequence (`List Nat`).
-/

/-- The wire `Request` (src/iroha_network/src/lib.rs:165-169).
`uri_path : String` is modeled by its UTF-8 bytes; `payload : Vec<u8>` by a byte list. -/
structure Request where
  uri_path : List Nat
  payload : List Nat
  deriving DecidableEq, Repr

/-- A UTF-8 continuation byte: `0x80..=0xBF`. -/
def isUtf8Cont (b : Nat) : Bool :=
  0x80 ≤ b && b ≤ 0xBF

/-- RFC 3629 UTF-8 validity of a byte sequence: models the check performed by
Rust's `String::from_utf8` (which errors on invalid UTF-8). -/
def isValidUtf8 : List Nat → Bool
  | [] => true
  | b :: rest =>
    if b ≤ 0x7F then isValidUtf8 rest
    else if 0xC2 ≤ b && b ≤ 0xDF then
      match rest with
      | c1 :: rest2 => isUtf8Cont c1 && isValidUtf8 rest2
      | [] => false
    else if b = 0xE0 then
      match rest with
      | c1 :: c2 :: rest2 =>
        (0xA0 ≤ c1 && c1 ≤ 0xBF) && isUtf8Cont c2 && isValidUtf8 rest2
      | _ => false
    else if (0xE1 ≤ b && b ≤ 0xEC) || b = 0xEE || b = 0xEF then
      match rest with
      | c1 :: c2 :: rest2 => isUtf8Cont c1 && isUtf8Cont c2 && isValidUtf8 rest2
      | _ => false
    else if b = 0xED then
      match rest with
      | c1 :: c2 :: rest2 =>
        (0x80 ≤ c1 && c1 ≤ 0x9F) && isUtf8Cont c2 && isValidUtf8 rest2
      | _ => false
    else if b = 0xF0 then
      match rest with
      | c1 :: c2 :: c3 :: rest2 =>
        (0x90 ≤ c1 && c1 ≤ 0xBF) && isUtf8Cont c2 && isUtf8Cont c3 && isValidUtf8 rest2
      | _ => false
    else if 0xF1 ≤ b && b ≤ 0xF3 then
      match rest with
      | c1 :: c2 :: c3 :: rest2 =>
        isUtf8Cont c1 && isUtf8Cont c2 && isUtf8Cont c3 && isValidUtf8 rest2
      | _ => false
    else if b = 0xF4 then
      match rest with
      | c1 :: c2 :: c3 :: rest2 =>
        (0x80 ≤ c1 && c1 ≤ 0x8F) && isUtf8Cont c2 && isUtf8Cont c3 && isValidUtf8 rest2
      | _ => false
    else false

/-- Embeds `impl From<Request> for Vec<u8>` (src/iroha_network/src/lib.rs:199-207):
starts from an empty vector, extends with the `uri_path` bytes, then with
`b"\r\n" = [13, 10]`, then with the payload bytes. -/
def requestIntoBytes (request : Request) : List Nat :=
  let bytes : List Nat := []
  let bytes := bytes ++ request.uri_path
  let bytes := bytes ++ [13, 10]
  let bytes := bytes ++ request.payload
  bytes

/-- Outcome of `Request::try_from` (src/iroha_network/src/lib.rs:209-221).
`errNoUrl` is the `ok_or("Failed to get url.")` branch; `errUtf8` the
`String::from_utf8(...)?` failure; `panicked` models the Rust panic raised by
`url[..(url.len() - 1)]` when `url` is empty (debug build: `usize` subtraction
overflow; release build: the wrapped index is out of range). -/
inductive DecodeResult where
  | panicked
  | errNoUrl
  | errUtf8
  | ok (r : Request)
  deriving DecidableEq, Repr

/-- Embeds `impl TryFrom<Vec<u8>> for Request` (src/iroha_network/src/lib.rs:209-221):
`bytes.split(|byte| *byte == b"\n"[0])` is `List.splitOn 10` (Rust slice `split` and
`List.splitOn` agree: the empty slice yields one empty segment, separators are removed);
`url` is the first segment, `payload` is `split_iter.flatten().cloned().collect()`, i.e.
the concatenation of the remaining segments; the path is
`String::from_utf8(url[..(url.len() - 1)].to_vec())?`. -/
def requestTryFrom (bytes : List Nat) : DecodeResult :=
  match bytes.splitOn 10 with
  | [] => DecodeResult.errNoUrl
  | url :: rest =>
    let payload := rest.flatten
    if url.length = 0 then DecodeResult.panicked
    else if isValidUtf8 (url.take (url.length - 1)) then
      DecodeResult.ok ⟨url.take (url.length - 1), payload⟩
    else DecodeResult.errUtf8

/-- `pub const BUFFER_SIZE: usize = 2048;` (src/iroha_network/src/lib.rs:16). -/
def BUFFER_SIZE : Nat := 2048

/-- Outcome of `Network::handle_message` (src/iroha_network/src/lib.rs:98-113).
`panicked` models the `.expect("Request read failed.")` / decode panics;
`parseError` the `map_err(|_| "Failed to parse message.")?` branch;
`handlerError` an error returned by the application handler and propagated by `?`;
`ok written` a successful exchange with `written` the response bytes written and flushed. -/
inductive HandleResult where
  | panicked
  | parseError
  | handlerError
  | ok (written : List Nat)
  deriving DecidableEq, Repr

/-- Embeds `Network::handle_message` (src/iroha_network/src/lib.rs:98-113).
The stream is modeled by `incoming`, the byte sequence the peer has sent: the single
`stream.read(&mut buffer)` into the `[0u8; BUFFER_SIZE]` buffer delivers the available
bytes truncated to the buffer, i.e. `buffer[..read_size] = incoming.take BUFFER_SIZE`,
which is fed to `Request::try_from`; the handler response is then written back. -/
def handleMessage (incoming : List Nat)
    (handler : Request → Except Unit (List Nat)) : HandleResult :=
  let readBytes := incoming.take BUFFER_SIZE
  match requestTryFrom readBytes with
  | DecodeResult.panicked => HandleResult.panicked
  | DecodeResult.errNoUrl => HandleResult.parseError
  | DecodeResult.errUtf8 => HandleResult.parseError
  | DecodeResult.ok request =>
    match handler request with
    | Except.error _ => HandleResult.handlerError
    | Except.ok response => HandleResult.ok response

/-- Embeds `Network::send_over_stream` (src/iroha_network/src/lib.rs:146-156), the client
side of one exchange, with the stream modeled by `serverResponse`, the byte sequence the
server sends back. Returns the bytes written to the stream (the encoded request) and the
value returned to the caller: `buffer[..read_size].to_vec()` with a `[0u8; BUFFER_SIZE]`
buffer, i.e. the response truncated to `BUFFER_SIZE`. -/
def sendOverStream (request : Request) (serverResponse : List Nat) : List Nat × List Nat :=
  (requestIntoBytes request, serverResponse.take BUFFER_SIZE)

/-- Embeds `Network::listen` (src/iroha_network/src/lib.rs:59-68) on a finite trace of
incoming connections. Each element of the list is one accepted connection:
`Except.error e` models `stream?` failing, `Except.ok s` a stream `s` passed to `handler`.
Mirrors the loop body `handler(Box::new(stream?))?;`: both `?` operators end the loop by
returning the error. Returns the streams on which `handler` was invoked, in order, together
with the loop's result. -/
def listenTrace {σ ε : Type} (handler : σ → Except ε Unit) :
    List (Except ε σ) → List σ × Except ε Unit
  | [] => ([], Except.ok ())
  | Except.error e :: _ => ([], Except.error e)
  | Except.ok s :: rest =>
    match handler s with
    | Except.error e => ([s], Except.error e)
    | Except.ok _ =>
      let r := listenTrace handler rest
      (s :: r.1, r.2)

/-- The connection handler the crate's tests pass to `Network::listen`
(`|mut stream| Network::handle_message(&mut stream, handler)`,
src/iroha_network/src/lib.rs:262-264): the `Result<(), _>` that `handle_message` hands
back to the listen loop, on inputs where it does not panic — parse and application-handler
failures become `Err`, a completed exchange `Ok`. -/
def listenConnectionHandler (handler : Request → Except Unit (List Nat))
    (incoming : List Nat) : Except Unit Unit :=
  match handleMessage incoming handler with
  | HandleResult.ok _ => Except.ok ()
  | _ => Except.error ()

/-- The UTF-8 bytes of `"/number_of_peers"` (src/iroha_network/src/lib.rs:361). -/
def numberOfPeersPath : List Nat :=
  [47, 110, 117, 109, 98, 101, 114, 95, 111, 102, 95, 112, 101, 101, 114, 115]

/-- The UTF-8 bytes of `"/add_peer"` (src/iroha_network/src/lib.rs:362). -/
def addPeerPath : List Nat := [47, 97, 100, 100, 95, 112, 101, 101, 114]

/-- The UTF-8 bytes of `"/add_me"` (src/iroha_network/src/lib.rs:372). -/
def addMePath : List Nat := [47, 97, 100, 100, 95, 109, 101]

/-- `CHashMap::insert` restricted to the key set of `Peer::peers` (the values are `()`):
the key set gains the key when absent and is unchanged when present. The list keeps
insertion order and stays duplicate-free. -/
def chashmapInsert {α : Type} [DecidableEq α] (peers : List α) (a : α) : List α :=
  if a ∈ peers then peers else peers ++ [a]

/-- Outcome of `Peer::handle_message` (src/iroha_network/src/lib.rs:359-398):
`ok peers response outbound` carries the updated registry, the `Response` bytes, and the
outbound `add_peer` requests issued by the `/add_me` branch (destination address paired
with the request); `panicked` models `unwrap()` failing on an unparsable address and the
`unimplemented!()` wildcard route. -/
inductive PeerReply (α : Type) where
  | ok (peers : List α) (response : List Nat) (outbound : List (α × Request))
  | panicked
  deriving DecidableEq, Repr

/-- Embeds `Peer::handle_message` (src/iroha_network/src/lib.rs:359-398).
`parseAddr` models `SocketAddr::from_str` applied to `String::from_utf8(payload)`
(`unwrap()` panics on failure); `printAddr` models `SocketAddr::to_string` into bytes.
`/number_of_peers` answers `vec![self.peers.len() as u8]`, i.e. one byte holding the
registry size reduced `mod 256`; `/add_peer` inserts the parsed address; `/add_me`
records, for every known peer `P`, the synchronous `add_peer(payload)` to `P` and the
delayed `add_peer(P)` to the joining address, then inserts the joining address. -/
def peerHandleMessage {α : Type} [DecidableEq α]
    (parseAddr : List Nat → Option α) (printAddr : α → List Nat)
    (peers : List α) (request : Request) : PeerReply α :=
  if request.uri_path = numberOfPeersPath then
    PeerReply.ok peers [peers.length % 256] []
  else if request.uri_path = addPeerPath then
    match parseAddr request.payload with
    | none => PeerReply.panicked
    | some a => PeerReply.ok (chashmapInsert peers a) [] []
  else if request.uri_path = addMePath then
    match parseAddr request.payload with
    | none => PeerReply.panicked
    | some address =>
      let outbound :=
        (peers.map fun peer =>
          [(peer, Request.mk addPeerPath request.payload),
           (address, Request.mk addPeerPath (printAddr peer))]).flatten
      PeerReply.ok (chashmapInsert peers address) [] outbound
  else PeerReply.panicked

/-- `DashSet::insert` as performed by `wsv.trusted_peers_ids().insert(self.object.id)`:
returns the updated set and `true` iff the value was newly inserted (not already present). -/
def dashSetInsert {α : Type} [DecidableEq α] (s : List α) (x : α) : List α × Bool :=
  if x ∈ s then (s, false) else (s ++ [x], true)

/-- Embeds `impl Execute<W> for Register<Peer>` (src/iroha/src/smartcontracts/isi/world.rs:13-27).
The world-state view is modeled by its trusted-peers id set (a list kept duplicate-free);
the error value (`"Peer already presented in the list of trusted peers."`) is modeled as
`Unit`. Returns the trusted-peers set after execution and the `Result`. -/
def registerPeerExecute {α : Type} [DecidableEq α]
    (trustedPeersIds : List α) (peerId : α) : List α × Except Unit Unit :=
  let r := dashSetInsert trustedPeersIds peerId
  if r.2 then (r.1, Except.ok ()) else (r.1, Except.error ())

/-! ### Helper lemmas about `List.splitOn 10` -/

/-- `List.splitOn` is `List.splitOnP` on equality with the separator. -/
theorem splitOn_eq_splitOnP (l : List Nat) : l.splitOn 10 = l.splitOnP (· == 10) := rfl

/-- Flattening a `modifyHead (cons x)` of a nonempty list of lists conses `x`. -/
theorem flatten_modifyHead_cons {α : Type} (x : α) (S : List (List α)) (h : S ≠ []) :
    (S.modifyHead (List.cons x)).flatten = x :: S.flatten := by
  cases S with
  | nil => exact absurd rfl h
  | cons s ss => simp [List.modifyHead]

/-- Concatenating all segments produced by splitting on `10` removes exactly the `10` bytes. -/
theorem flatten_splitOn_eq_filter (l : List Nat) :
    (l.splitOn 10).flatten = l.filter (fun b => b != 10) := by
  rw [splitOn_eq_splitOnP]
  induction l with
  | nil => simp
  | cons x xs ih =>
    rw [List.splitOnP_cons]
    by_cases hx : (x == 10) = true
    · have hx10 : x = 10 := by simpa using hx
      simp [hx, hx10, ih]
    · have hne : (x != 10) = true := by simp_all [bne]
      rw [if_neg (by simp_all),
        flatten_modifyHead_cons x _ (List.splitOnP_ne_nil _ xs)]
      simp [hne, ih]

/-- Splitting on `10`: the first segment is the longest `10`-free head, and the
remaining segments flatten to the bytes after the first `10` with the `10` bytes removed. -/
theorem splitOn_structure (l : List Nat) :
    ∃ rest, l.splitOn 10 = l.takeWhile (fun b => b != 10) :: rest ∧
      rest.flatten = ((l.dropWhile (fun b => b != 10)).drop 1).filter (fun b => b != 10) := by
  rw [splitOn_eq_splitOnP]
  induction l with
  | nil => exact ⟨[], by simp⟩
  | cons x xs ih =>
    rw [List.splitOnP_cons]
    by_cases hx : (x == 10) = true
    · refine ⟨xs.splitOnP (· == 10), ?_, ?_⟩
      · have : (x != 10) = false := by simp_all [bne]
        simp [hx, List.takeWhile_cons, this]
      · have hpred : (x != 10) = false := by simp_all [bne]
        rw [← splitOn_eq_splitOnP, flatten_splitOn_eq_filter]
        simp [List.dropWhile_cons, hpred]
    · obtain ⟨rest, h1, h2⟩ := ih
      have hpred : (x != 10) = true := by simp_all [bne]
      refine ⟨rest, ?_, ?_⟩
      · rw [if_neg hx, h1]
        simp [List.takeWhile_cons, hpred, List.modifyHead]
      · rw [h2]
        simp [List.dropWhile_cons, hpred]

/-- `Request::try_from` characterized without `splitOn`: the url segment is the longest
`\n`-free head of the input, the payload is everything after the first `\n` with all
`\n` bytes removed. -/
theorem requestTryFrom_eq (bytes : List Nat) :
    requestTryFrom bytes =
      if (bytes.takeWhile (fun b => b != 10)).length = 0 then DecodeResult.panicked
      else if isValidUtf8 ((bytes.takeWhile (fun b => b != 10)).take
          ((bytes.takeWhile (fun b => b != 10)).length - 1)) then
        DecodeResult.ok ⟨(bytes.takeWhile (fun b => b != 10)).take
            ((bytes.takeWhile (fun b => b != 10)).length - 1),
          ((bytes.dropWhile (fun b => b != 10)).drop 1).filter (fun b => b != 10)⟩
      else DecodeResult.errUtf8 := by
  obtain ⟨rest, h1, h2⟩ := splitOn_structure bytes
  rw [requestTryFrom, h1]
  simp only [h2]

/-! ### Claim theorems -/

/-- Claim C6 (confirmed): encoding is total and deterministic — `Vec::<u8>::from(request)`
is exactly the `uri_path` bytes, then the two bytes `0x0D 0x0A`, then the payload bytes;
no length prefix, no escaping, no other bytes (the length is `|uri_path| + 2 + |payload|`). -/
theorem c6_encode_exact (r : Request) :
    requestIntoBytes r = r.uri_path ++ [13, 10] ++ r.payload ∧
      (requestIntoBytes r).length = r.uri_path.length + 2 + r.payload.length := by
  refine ⟨by simp [requestIntoBytes], ?_⟩
  simp [requestIntoBytes]
  omega

/-- Claim C7 (confirmed): a server-side read of one framed request reads at most
`BUFFER_SIZE = 2048` bytes — a longer message reaches the decode step truncated to its
first 2048 bytes instead of being rejected (`handle_message` behaves identically on the
full message and on its 2048-byte truncation), and the client's `send_over_stream`
returns at most 2048 response bytes. -/
theorem c7_truncation :
    BUFFER_SIZE = 2048 ∧
    (∀ incoming handler, handleMessage incoming handler =
      handleMessage (incoming.take BUFFER_SIZE) handler) ∧
    (∀ request serverResponse,
      (sendOverStream request serverResponse).2 = serverResponse.take BUFFER_SIZE ∧
      (sendOverStream request serverResponse).2.length ≤ BUFFER_SIZE) := by
  refine ⟨rfl, ?_, ?_⟩
  · intro incoming handler
    simp [handleMessage, List.take_take]
  · intro request serverResponse
    exact ⟨rfl, by simp [sendOverStream]⟩

/-- Claim C9 (confirmed): `Request::try_from` is not total — whenever the segment before
the first `\n` is empty (the empty input, or any input starting with `\n`), the
`url[..(url.len() - 1)]` index computation underflows and the code panics instead of
returning `Ok` or an error. -/
theorem c9_empty_url_panics (bytes : List Nat)
    (h : bytes.takeWhile (fun b => b != 10) = []) :
    requestTryFrom bytes = DecodeResult.panicked := by
  rw [requestTryFrom_eq, h]
  simp

/-- Witness for C9 at the empty input and at an input whose first byte is `\n`. -/
theorem c9_empty_url_panics_witness :
    (([] : List Nat).takeWhile (fun b => b != 10) = [] ∧
      requestTryFrom [] = DecodeResult.panicked) ∧
    (([10, 97] : List Nat).takeWhile (fun b => b != 10) = [] ∧
      requestTryFrom [10, 97] = DecodeResult.panicked) :=
  ⟨⟨rfl, c9_empty_url_panics [] rfl⟩, ⟨rfl, c9_empty_url_panics [10, 97] rfl⟩⟩

/-- Claim C10 (confirmed): `Register<Peer>::execute` fails exactly when the peer is
already registered — an absent peer id is inserted and `Ok(())` returned; a present one
yields an error and leaves the trusted-peers set unchanged. -/
theorem c10_register_peer {α : Type} [DecidableEq α] (trusted : List α) (peerId : α) :
    (peerId ∉ trusted →
      registerPeerExecute trusted peerId = (trusted ++ [peerId], Except.ok ())) ∧
    (peerId ∈ trusted →
      registerPeerExecute trusted peerId = (trusted, Except.error ())) := by
  constructor
  · intro h
    simp [registerPeerExecute, dashSetInsert, h]
  · intro h
    simp [registerPeerExecute, dashSetInsert, h]

/-- Witness for C10: registering a fresh peer succeeds and extends the set; registering a
present peer errors and leaves the set unchanged. -/
theorem c10_register_peer_witness :
    ((3 : Nat) ∉ ([1, 2] : List Nat) ∧
      registerPeerExecute [1, 2] 3 = ([1, 2, 3], Except.ok ())) ∧
    ((1 : Nat) ∈ ([1, 2] : List Nat) ∧
      registerPeerExecute [1, 2] 1 = ([1, 2], Except.error ())) :=
  ⟨⟨by decide, (c10_register_peer [1, 2] 3).1 (by decide)⟩,
   ⟨by decide, (c10_register_peer [1, 2] 1).2 (by decide)⟩⟩

/-- Claim C8 (confirmed): the `/number_of_peers` route answers one byte holding
`peers.len() as u8`, i.e. the registry size reduced `mod 256` (so the representable
count caps at 255); for registries of at most 255 peers that byte is the exact size. -/
theorem c8_number_of_peers {α : Type} [DecidableEq α]
    (parseAddr : List Nat → Option α) (printAddr : α → List Nat)
    (peers : List α) (payload : List Nat) :
    peerHandleMessage parseAddr printAddr peers ⟨numberOfPeersPath, payload⟩ =
      PeerReply.ok peers [peers.length % 256] [] ∧
    [peers.length % 256].length = 1 ∧
    (peers.length ≤ 255 → [peers.length % 256] = [peers.length]) := by
  refine ⟨by simp [peerHandleMessage], rfl, ?_⟩
  intro h
  have hlt : peers.length % 256 = peers.length := Nat.mod_eq_of_lt (by omega)
  simp [hlt]

/-- Witness for C8 on a three-peer registry: the response is the single byte `3`. -/
theorem c8_number_of_peers_witness :
    peerHandleMessage (fun _ => (none : Option Nat)) (fun _ => ([] : List Nat)) [5, 6, 7]
        ⟨numberOfPeersPath, []⟩ =
      PeerReply.ok [5, 6, 7] [([5, 6, 7] : List Nat).length % 256] [] ∧
    [([5, 6, 7] : List Nat).length % 256] = [([5, 6, 7] : List Nat).length] :=
  ⟨(c8_number_of_peers (fun _ => none) (fun _ => []) [5, 6, 7] []).1,
   (c8_number_of_peers (fun _ => none) (fun _ => []) [5, 6, 7] []).2.2 (by decide)⟩

/-- Claim C5 (confirmed): the one-byte strip is unconditional — on any input whose
segment before the first `\n` is non-empty, decoding does not panic, and whenever it
returns a `Request` its `uri_path` is that segment with its last byte dropped, whether or
not that byte is `\r`. -/
theorem c5_unconditional_strip (bytes : List Nat)
    (h : bytes.takeWhile (fun b => b != 10) ≠ []) :
    requestTryFrom bytes ≠ DecodeResult.panicked ∧
    ∀ req, requestTryFrom bytes = DecodeResult.ok req →
      req.uri_path = (bytes.takeWhile (fun b => b != 10)).take
        ((bytes.takeWhile (fun b => b != 10)).length - 1) := by
  have hlen : ¬ (bytes.takeWhile (fun b => b != 10)).length = 0 := by
    simpa [List.length_eq_zero] using h
  rw [requestTryFrom_eq, if_neg hlen]
  by_cases hv : isValidUtf8 ((bytes.takeWhile (fun b => b != 10)).take
      ((bytes.takeWhile (fun b => b != 10)).length - 1)) = true
  · rw [if_pos hv]
    refine ⟨by simp, fun req hreq => ?_⟩
    injection hreq with h2
    rw [← h2]
  · rw [if_neg hv]
    exact ⟨by simp, fun req hreq => by simp at hreq⟩

/-- Witness for C5 on `"ab\nc"`: the byte before `\n` is `b` (not `\r`), and it is still
dropped — the decoded path is `"a"`. -/
theorem c5_unconditional_strip_witness :
    requestTryFrom [97, 98, 10, 99] ≠ DecodeResult.panicked ∧
    (Request.mk [97] [99]).uri_path =
      (([97, 98, 10, 99] : List Nat).takeWhile (fun b => b != 10)).take
        ((([97, 98, 10, 99] : List Nat).takeWhile (fun b => b != 10)).length - 1) :=
  ⟨(c5_unconditional_strip [97, 98, 10, 99] (by decide)).1,
   (c5_unconditional_strip [97, 98, 10, 99] (by decide)).2 ⟨[97], [99]⟩ rfl⟩

/-- Claim C3 as stated is false: on `"a\r\nb\nc"` the bytes after the first `\n` are
`"b\nc"`, but the decoded payload is `"bc"` — the embedded `\n` is removed, because the
code splits the whole input on `\n` and flattens the remaining segments. -/
theorem c3_payload_counterexample :
    ((([97, 13, 10, 98, 10, 99] : List Nat).dropWhile (fun b => b != 10)).drop 1)
        = [98, 10, 99] ∧
    requestTryFrom [97, 13, 10, 98, 10, 99] ≠ DecodeResult.ok ⟨[97], [98, 10, 99]⟩ ∧
    requestTryFrom [97, 13, 10, 98, 10, 99] = DecodeResult.ok ⟨[97], [98, 99]⟩ := by
  decide

/-- Claim C3 (corrected): whenever decode returns a `Request`, its payload is the bytes
after the first `\n` with every `\n` byte removed (the suffix is re-split on `\n` and the
pieces concatenated), not the verbatim suffix. -/
theorem c3_payload_amended (bytes : List Nat) (req : Request)
    (h : requestTryFrom bytes = DecodeResult.ok req) :
    req.payload = ((bytes.dropWhile (fun b => b != 10)).drop 1).filter (fun b => b != 10) := by
  rw [requestTryFrom_eq] at h
  by_cases h0 : (bytes.takeWhile (fun b => b != 10)).length = 0
  · rw [if_pos h0] at h
    simp at h
  · rw [if_neg h0] at h
    by_cases hv : isValidUtf8 ((bytes.takeWhile (fun b => b != 10)).take
        ((bytes.takeWhile (fun b => b != 10)).length - 1)) = true
    · rw [if_pos hv] at h
      injection h with h2
      rw [← h2]
    · rw [if_neg hv] at h
      simp at h

/-- Witness for C3 (corrected) on `"a\r\nb\nc"`. -/
theorem c3_payload_amended_witness :
    (Request.mk [97] [98, 99]).payload =
      ((([97, 13, 10, 98, 10, 99] : List Nat).dropWhile (fun b => b != 10)).drop 1).filter
        (fun b => b != 10) :=
  c3_payload_amended [97, 13, 10, 98, 10, 99] ⟨[97], [98, 99]⟩ rfl

/-- Claim C1 as stated is false: the `Request` with `uri_path = "a"` (newline-free) and
payload `[10]` does not round-trip — the payload's `\n` is dropped by decoding. -/
theorem c1_roundtrip_counterexample :
    (10 : Nat) ∉ (Request.mk [97] [10]).uri_path ∧
    requestTryFrom (requestIntoBytes ⟨[97], [10]⟩) ≠ DecodeResult.ok ⟨[97], [10]⟩ ∧
    requestTryFrom (requestIntoBytes ⟨[97], [10]⟩) = DecodeResult.ok ⟨[97], []⟩ := by
  decide

/-- Claim C1 (corrected): the round-trip law holds once the payload is also newline-free —
for every `Request` whose `uri_path` (valid UTF-8, as every Rust `String` is) and payload
both contain no `\n` byte, decoding the encoding yields the request back. -/
theorem c1_roundtrip_amended (r : Request)
    (hutf8 : isValidUtf8 r.uri_path = true)
    (hpath : (10 : Nat) ∉ r.uri_path) (hpayload : (10 : Nat) ∉ r.payload) :
    requestTryFrom (requestIntoBytes r) = DecodeResult.ok r := by
  have henc : requestIntoBytes r = (r.uri_path ++ [13]) ++ 10 :: r.payload := by
    simp [requestIntoBytes]
  have hno : ∀ x ∈ r.uri_path ++ [13], ¬((x == 10) = true) := by
    intro x hx hbeq
    have hx10 : x = 10 := eq_of_beq hbeq
    subst hx10
    rcases List.mem_append.mp hx with hmem | hmem
    · exact hpath hmem
    · simp at hmem
  have hpay : ∀ x ∈ r.payload, ¬((x == 10) = true) := by
    intro x hx hbeq
    exact hpayload (eq_of_beq hbeq ▸ hx)
  have hsplit : (requestIntoBytes r).splitOn 10 = (r.uri_path ++ [13]) :: [r.payload] := by
    rw [henc, splitOn_eq_splitOnP,
      List.splitOnP_first (· == 10) (r.uri_path ++ [13]) hno 10 (by decide) r.payload,
      List.splitOnP_eq_single (· == 10) r.payload hpay]
  rw [requestTryFrom, hsplit]
  have hlen : ¬ (r.uri_path ++ [13]).length = 0 := by simp
  have htake : (r.uri_path ++ [13]).take ((r.uri_path ++ [13]).length - 1) = r.uri_path := by
    simp [List.take_left]
  simp only [List.flatten, List.append_nil, if_neg hlen, htake, hutf8, if_pos]

/-- Witness for C1 (corrected) at `Request { uri_path: "/p", payload: "xy" }`. -/
theorem c1_roundtrip_amended_witness :
    isValidUtf8 (Request.mk [47, 112] [120, 121]).uri_path = true ∧
    (10 : Nat) ∉ (Request.mk [47, 112] [120, 121]).uri_path ∧
    (10 : Nat) ∉ (Request.mk [47, 112] [120, 121]).payload ∧
    requestTryFrom (requestIntoBytes ⟨[47, 112], [120, 121]⟩) =
      DecodeResult.ok ⟨[47, 112], [120, 121]⟩ :=
  ⟨by decide, by decide, by decide,
   c1_roundtrip_amended ⟨[47, 112], [120, 121]⟩ (by decide) (by decide) (by decide)⟩

/-- Claim C2 as stated is false: `"ab"` contains no `\n`, yet decoding does not fail with
a missing-delimiter error — it succeeds, with path `"a"` and empty payload. -/
theorem c2_missing_delimiter_counterexample :
    (10 : Nat) ∉ ([97, 98] : List Nat) ∧
    requestTryFrom [97, 98] = DecodeResult.ok ⟨[97], []⟩ := by
  decide

/-- Claim C2 (corrected): the missing-delimiter branch (`ok_or("Failed to get url.")`) is
unreachable on every input, because splitting always yields at least one segment; a
nonempty `\n`-free input decodes to `Ok` with `uri_path` the input minus its last byte
(when that is valid UTF-8) and an empty payload (the empty input panics instead). -/
theorem c2_missing_delimiter_amended (bytes : List Nat) :
    requestTryFrom bytes ≠ DecodeResult.errNoUrl ∧
    ((10 : Nat) ∉ bytes → bytes ≠ [] →
      isValidUtf8 (bytes.take (bytes.length - 1)) = true →
      requestTryFrom bytes = DecodeResult.ok ⟨bytes.take (bytes.length - 1), []⟩) := by
  constructor
  · rw [requestTryFrom_eq]
    split
    · simp
    · split <;> simp
  · intro hmem hne hvalid
    have hno : ∀ x ∈ bytes, ¬((x == 10) = true) := by
      intro x hx hbeq
      exact hmem (eq_of_beq hbeq ▸ hx)
    have hsplit : bytes.splitOn 10 = [bytes] := by
      rw [splitOn_eq_splitOnP]
      exact List.splitOnP_eq_single (· == 10) bytes hno
    rw [requestTryFrom, hsplit]
    have hlen : ¬ bytes.length = 0 := by simpa [List.length_eq_zero] using hne
    simp only [List.flatten, if_neg hlen, hvalid, if_pos]

/-- Witness for C2 (corrected) at `"abc"`: no error, `Ok` with path `"ab"`. -/
theorem c2_missing_delimiter_amended_witness :
    requestTryFrom [97, 98, 99] ≠ DecodeResult.errNoUrl ∧
    requestTryFrom [97, 98, 99] = DecodeResult.ok ⟨[97, 98], []⟩ :=
  ⟨(c2_missing_delimiter_amended [97, 98, 99]).1,
   (c2_missing_delimiter_amended [97, 98, 99]).2 (by decide) (by decide) (by decide)⟩

/-- Claim C4 as stated is false: with the listen loop driven by `handle_message` (as in the
crate's tests) and an application handler that always succeeds, a decode failure on the
first connection (`[200, 200, 10]`, whose path bytes are invalid UTF-8) terminates the
loop with an error — the pending well-formed second connection is never handled. -/
theorem c4_error_scoping_counterexample :
    handleMessage [200, 200, 10] (fun _ => Except.ok [112]) = HandleResult.parseError ∧
    listenTrace (listenConnectionHandler (fun _ => Except.ok [112]))
        [Except.ok [200, 200, 10], Except.ok [97, 13, 10]] =
      ([[200, 200, 10]], Except.error ()) :=
  ⟨by decide, rfl⟩

/-- Claim C4 (corrected): errors are not connection-scoped in `Network::listen` — an `Err`
from the per-connection handler ends the loop at that connection via `?`, returning the
error with the remaining connections unhandled; the loop runs to completion exactly when
the handler swallows every error and returns `Ok` (as the multi-threaded test does by
spawning a thread per connection). -/
theorem c4_error_scoping_amended {σ ε : Type} (handler : σ → Except ε Unit) :
    (∀ s e rest, handler s = Except.error e →
      listenTrace handler (Except.ok s :: rest) = ([s], Except.error e)) ∧
    (∀ streams : List σ, (∀ t, handler t = Except.ok ()) →
      listenTrace handler (streams.map Except.ok) = (streams, Except.ok ())) := by
  constructor
  · intro s e rest h
    simp [listenTrace, h]
  · intro streams hok
    induction streams with
    | nil => rfl
    | cons s ss ih => simp [listenTrace, hok s, ih]

/-- Witness for C4 (corrected): an erroring handler stops the loop at the first
connection; an always-succeeding handler processes every connection. -/
theorem c4_error_scoping_amended_witness :
    listenTrace (fun s : Nat => if s = 0 then Except.error 7 else Except.ok ())
        [Except.ok 0, Except.ok 1] = ([0], Except.error 7) ∧
    listenTrace (fun _ : Nat => (Except.ok () : Except Nat Unit))
        ([5, 6].map Except.ok) = ([5, 6], Except.ok ()) :=
  ⟨(c4_error_scoping_amended (fun s : Nat => if s = 0 then Except.error 7 else Except.ok ())).1
      0 7 [Except.ok 1] rfl,
   (c4_error_scoping_amended (fun _ : Nat => (Except.ok () : Except Nat Unit))).2
      [5, 6] (fun _ => rfl)⟩

